import Mathlib

/-!
Verification development for the kiss-translator Obsidian plugin
(`src/translator.ts`, `src/cloud.ts`, `main.ts`).

The TypeScript source is shallowly embedded:
* DOM elements become a tree type `Elem` carrying the data the code reads
  (tag, class list, selector matches, `innerText`, children); node identity
  is a `Nat` id.
* The mutable session (`TranslationSession`) becomes a record `SState`
  threaded through the operations; the DOM side effects the session performs
  (inserting/removing annotation nodes, toggling the hide-original class)
  are recorded in the same record.  The fields `requests` and `backendCalls`
  are an observation log of the network requests issued and of the texts
  dispatched to a backend.
* `fetch`/`requestUrl` become oracles `FetchRequest → FetchResponse`
  (resp. `String → FetchResponse`); a response body that is not valid JSON
  is modelled by `json = none` (accessing it in JS throws).
* JS strings are modelled by `String` over `List Char`; `text.length` is the
  number of characters (the UTF-16 subtlety for non-BMP code points is not
  exercised by any claim).  String helpers (`replace`, `trim`, whitespace
  collapsing) are implemented structurally so that concrete runs evaluate.
-/

/-! ### JS string primitives -/

/-- The main JS `\s` whitespace characters (space, tab, newline, carriage
return, vertical tab, form feed).  The exotic Unicode space code points that
JS also includes are not exercised by the source's inputs. -/
def isJsSpace (c : Char) : Bool :=
  c = ' ' || c = '\t' || c = '\n' || c = '\r' || c = '\x0b' || c = '\x0c'

/-- `isPrefixL pat l` : `pat` is a prefix of `l` (char lists). -/
def isPrefixL : List Char → List Char → Bool
  | [], _ => true
  | _ :: _, [] => false
  | p :: ps, c :: cs => p = c && isPrefixL ps cs

/-- Literal global replacement on char lists: scan left to right, replace
each non-overlapping occurrence of `pat` by `rep`; the replacement is not
rescanned.  Models JS `String.prototype.replace(/lit/g, rep)`.  The `fuel`
argument (instantiated with the list length, which bounds the number of
scan steps) makes the recursion structural so that concrete instances
evaluate in the kernel. -/
def replaceFuel (pat rep : List Char) : Nat → List Char → List Char
  | _, [] => []
  | 0, l => l
  | fuel + 1, c :: cs =>
    if isPrefixL pat (c :: cs) then
      rep ++ replaceFuel pat rep fuel (List.drop (pat.length - 1) cs)
    else
      c :: replaceFuel pat rep fuel cs

def replaceL (pat rep l : List Char) : List Char :=
  replaceFuel pat rep l.length l

/-- JS `template.replace(/pat/g, rep)` for a literal pattern. -/
def replaceStr (s pat rep : String) : String :=
  String.mk (replaceL pat.data rep.data s.data)

/-- Collapse every whitespace run to a single space
(JS `replace(/\s+/g, " ")`). -/
def collapseWsL : List Char → List Char
  | [] => []
  | c :: cs =>
    let rest := collapseWsL cs
    if isJsSpace c then
      match rest with
      | ' ' :: _ => rest
      | _ => ' ' :: rest
    else c :: rest

/-- Drop leading and trailing JS whitespace (JS `String.prototype.trim`). -/
def trimWsL (l : List Char) : List Char :=
  ((l.dropWhile isJsSpace).reverse.dropWhile isJsSpace).reverse

/-- JS `s.trim()`. -/
def trimStr (s : String) : String :=
  String.mk (trimWsL s.data)

/-! ### Association lists (JS `Map` with insertion order) -/

/-- `Map.get`: first binding of the key. -/
def lookupA {α β : Type} [DecidableEq α] : List (α × β) → α → Option β
  | [], _ => none
  | (k, v) :: rest, a => if k = a then some v else lookupA rest a

/-- `Map.set`: update the existing binding in place, else append. -/
def setA {α β : Type} [DecidableEq α] : List (α × β) → α → β → List (α × β)
  | [], a, b => [(a, b)]
  | (k, v) :: rest, a, b =>
    if k = a then (a, b) :: rest else (k, v) :: setA rest a b

@[simp]
theorem lookupA_nil {α β : Type} [DecidableEq α] (a : α) :
    lookupA ([] : List (α × β)) a = none := rfl

theorem lookupA_setA_self {α β : Type} [DecidableEq α]
    (m : List (α × β)) (a : α) (b : β) : lookupA (setA m a b) a = some b := by
  induction m with
  | nil => simp [setA, lookupA]
  | cons p rest ih =>
    obtain ⟨k, v⟩ := p
    by_cases h : k = a
    · simp [setA, h, lookupA]
    · simp [setA, h, lookupA, ih]

theorem lookupA_setA_ne {α β : Type} [DecidableEq α]
    (m : List (α × β)) (a a' : α) (b : β) (h : a' ≠ a) :
    lookupA (setA m a b) a' = lookupA m a' := by
  have h' : a ≠ a' := Ne.symm h
  induction m with
  | nil => simp [setA, lookupA, h']
  | cons p rest ih =>
    obtain ⟨k, v⟩ := p
    by_cases hk : k = a
    · subst hk
      simp [setA, lookupA, h']
    · simp [setA, hk, lookupA, ih]

theorem lookupA_append_left {α β : Type} [DecidableEq α]
    (xs ys : List (α × β)) (a : α) (b : β) (h : lookupA xs a = some b) :
    lookupA (xs ++ ys) a = some b := by
  induction xs with
  | nil => simp [lookupA] at h
  | cons p rest ih =>
    obtain ⟨k, v⟩ := p
    by_cases hk : k = a
    · simp_all [lookupA]
    · simp_all [lookupA]

theorem lookupA_append_right_fresh {α β : Type} [DecidableEq α]
    (xs : List (α × β)) (a : α) (b : β) (h : lookupA xs a = none) :
    lookupA (xs ++ [(a, b)]) a = some b := by
  induction xs with
  | nil => simp [lookupA]
  | cons p rest ih =>
    obtain ⟨k, v⟩ := p
    by_cases hk : k = a
    · simp [lookupA, hk] at h
    · simp_all [lookupA]

/-! ### Settings (`KissTranslatorSettings` in `main.ts`) -/

structure KissTranslatorSettings where
  apiType : String
  apiUrl : String
  apiKey : String
  model : String
  fromLang : String
  toLang : String
  systemPrompt : String
  userPrompt : String
  skipSelectors : List String
  hideOriginal : Bool
  autoTranslateOnOpen : Bool
  deriving DecidableEq, Repr

/-! ### Errors thrown by `translator.ts`

Each constructor corresponds to one `throw new Error(...)` site; `errMessage`
records the thrown message text. -/

inductive TransErr where
  | noTarget
  | cfgSimpleUrl
  | cfgOpenAIUrl
  | cfgOpenAIKey
  | cfgOpenAIModel
  | cfgOpenAIPrompt
  | emptyTranslation
  | httpSimple (status : Nat)
  | httpOpenAI (status : Nat) (body : String)
  | parseSimple
  | parseOpenAI
  deriving DecidableEq, Repr

/-- The message text of each `throw new Error(...)` in `translator.ts`. -/
def errMessage : TransErr → String
  | .noTarget => "未找到可翻译的区域。"
  | .cfgSimpleUrl => "请先在设置中配置翻译接口地址。"
  | .cfgOpenAIUrl => "请配置 OpenAI 兼容接口地址。"
  | .cfgOpenAIKey => "请配置 API Key。"
  | .cfgOpenAIModel => "请配置模型名称。"
  | .cfgOpenAIPrompt => "用户提示词不能为空。"
  | .emptyTranslation => "翻译结果为空，请检查接口响应格式或提示词。"
  | .httpSimple status => "翻译接口返回错误：" ++ toString status
  | .httpOpenAI status body => "接口错误 " ++ toString status ++ ": " ++ body
  | .parseSimple => "解析翻译接口响应失败"
  | .parseOpenAI => "解析 OpenAI 兼容响应失败"

/-- The errors raised by the missing-configuration checks
(`ConfigError` in the specification's terms). -/
def isConfigErr : TransErr → Bool
  | .cfgSimpleUrl | .cfgOpenAIUrl | .cfgOpenAIKey
  | .cfgOpenAIModel | .cfgOpenAIPrompt => true
  | _ => false

/-! ### JSON values -/

inductive Json where
  | null
  | bool (b : Bool)
  | num (n : Int)
  | str (s : String)
  | arr (xs : List Json)
  | obj (fields : List (String × Json))

/-- JS optional property access `v?.k`: `none` models `undefined`
(property access on a non-object primitive yields `undefined`). -/
def jsGet : Json → String → Option Json
  | .obj fields, k => lookupA fields k
  | _, _ => none

/-- JS truthiness of a JSON value (`NaN` does not arise here). -/
def jsTruthy : Json → Bool
  | .null => false
  | .bool b => b
  | .num n => n ≠ 0
  | .str s => s ≠ ""
  | .arr _ => true
  | .obj _ => true

mutual
/-- JS `String(v)` conversion.  For arrays JS joins the members' string
conversions with commas; `[object Object]` for plain objects. -/
def jsToString : Json → String
  | .null => "null"
  | .bool b => if b then "true" else "false"
  | .num n => toString n
  | .str s => s
  | .arr xs => String.mk (jsArrChars xs)
  | .obj _ => "[object Object]"

def jsArrChars : List Json → List Char
  | [] => []
  | [x] => (jsToString x).data
  | x :: rest => (jsToString x).data ++ ',' :: jsArrChars rest
end

/-- JS `a || b` where `a` may be `undefined` (`none`): first truthy
operand, else `b`. -/
def jsOr2 : Option Json → Json → Json
  | some v, dflt => if jsTruthy v then v else dflt
  | none, dflt => dflt

/-- JS `a || b` on two present values. -/
def jsOrV (a b : Json) : Json :=
  if jsTruthy a then a else b

/-- JS `Number(v)`; `none` models `NaN`.  String parsing accepts an optional
sign followed by decimal digits (the fractional/exponent/hex forms JS also
accepts do not appear in any claim). -/
def jsToNumber : Json → Option Int
  | .null => some 0
  | .bool b => some (if b then 1 else 0)
  | .num n => some n
  | .str s =>
    let t := trimStr s
    if t = "" then some 0
    else if t.data.all Char.isDigit then some (t.toNat!)
    else if t.data.head? = some '-' && t.data.tail.all Char.isDigit
            && t.data.tail ≠ [] then
      some (-(String.mk t.data.tail).toNat!)
    else none
  | .arr [] => some 0
  | .arr [x] => jsToNumber x
  | .arr (_ :: _ :: _) => none
  | .obj _ => none

/-! ### The HTTP layer

`fetch`/`requestUrl` are modelled as pure oracles from a request to a
response.  `json = none` models a body that is not valid JSON (reading it
throws); `text` is the raw body text used in error messages. -/

structure ChatMsg where
  role : String
  content : String
  deriving DecidableEq, Repr

/-- The chat-completions request body.  `temperature` is the literal decimal
sent on the wire (the source writes the float `0.2`); `stream` is `false`. -/
structure ChatBody where
  model : String
  messages : List ChatMsg
  temperature : String
  stream : Bool
  deriving DecidableEq, Repr

inductive FetchRequest where
  | openaiReq (url : String) (apiKey : String) (body : ChatBody)
  | simpleReq (url : String) (payload : List (String × String))
  deriving DecidableEq, Repr

structure FetchResponse where
  status : Nat
  json : Option Json
  text : String

/-- `Response.ok`: status in the 2xx range. -/
def statusOk (status : Nat) : Bool :=
  200 ≤ status && status < 300

/-! ### Text normalisation and prompt templates (`translator.ts`) -/

/-- `normalizeText`: `text.replace(/\s+/g, " ").trim()`. -/
def normalizeText (text : String) : String :=
  String.mk (trimWsL (collapseWsL text.data))

/-- `fillTemplate`: three sequential global replacements, in source order
`{text}`, then `{from}` (default `"auto"`), then `{to}` (default `"zh"`). -/
def fillTemplate (s : KissTranslatorSettings) (template text : String) : String :=
  replaceStr
    (replaceStr
      (replaceStr template "{text}" text)
      "{from}" (if s.fromLang = "" then "auto" else s.fromLang))
    "{to}" (if s.toLang = "" then "zh" else s.toLang)

/-! ### The chat-style backend (`translateWithOpenAI`) -/

/-- The ordered message list: optional system message (present iff the
system-prompt template is non-blank), then the mandatory user message. -/
def openAIMessages (s : KissTranslatorSettings) (text : String) : List ChatMsg :=
  (if trimStr s.systemPrompt ≠ "" then
    [ChatMsg.mk "system" (fillTemplate s s.systemPrompt text)]
  else []) ++ [ChatMsg.mk "user" (fillTemplate s s.userPrompt text)]

/-- The single request `translateWithOpenAI` issues once its configuration
checks pass. -/
def openAIRequest (s : KissTranslatorSettings) (text : String) : FetchRequest :=
  FetchRequest.openaiReq s.apiUrl s.apiKey
    (ChatBody.mk s.model (openAIMessages s text) "0.2" false)

/-- `data?.choices?.[0]?.message?.content` followed by the
`typeof content === "string"` check. -/
def extractOpenAIContent (data : Json) : Option String :=
  match jsGet data "choices" with
  | some (Json.arr (c0 :: _)) =>
    match jsGet c0 "message" with
    | some m =>
      match jsGet m "content" with
      | some (Json.str s) => some s
      | _ => none
    | none => none
  | _ => none

/-- Handling of the chat-style response: non-2xx surfaces the body text;
an unparseable body is a parse failure; a string content is returned
trimmed; a missing or non-string content falls through to `return ""`. -/
def openAIResponseResult (res : FetchResponse) : Except TransErr String :=
  if ¬ statusOk res.status then .error (.httpOpenAI res.status res.text)
  else
    match res.json with
    | none => .error .parseOpenAI
    | some data =>
      match extractOpenAIContent data with
      | some c => .ok (trimStr c)
      | none => .ok ""

/-- `translateWithOpenAI`: configuration checks in source order (endpoint,
key, model, blank user prompt), then one fetch.  Returns the list of
requests issued together with the result. -/
def translateWithOpenAI (net : FetchRequest → FetchResponse)
    (s : KissTranslatorSettings) (text : String) :
    List FetchRequest × Except TransErr String :=
  if s.apiUrl = "" then ([], .error .cfgOpenAIUrl)
  else if s.apiKey = "" then ([], .error .cfgOpenAIKey)
  else if s.model = "" then ([], .error .cfgOpenAIModel)
  else if trimStr s.userPrompt = "" then ([], .error .cfgOpenAIPrompt)
  else
    ([openAIRequest s text], openAIResponseResult (net (openAIRequest s text)))

/-! ### The simple backend (`translateWithSimple`) -/

/-- The request payload `{q, source, target, format: "text"}` plus the
optional `api_key` field, in insertion order. -/
def simplePayload (s : KissTranslatorSettings) (text : String) :
    List (String × String) :=
  [("q", text),
   ("source", if s.fromLang = "" then "auto" else s.fromLang),
   ("target", if s.toLang = "" then "zh" else s.toLang),
   ("format", "text")] ++
  (if s.apiKey ≠ "" then [("api_key", s.apiKey)] else [])

/-- Handling of the simple response: non-2xx is a hard failure; an
unparseable body is a parse failure; then the `translatedText` field is
read directly or from the first list element, else `return ""`. -/
def simpleResponseResult (res : FetchResponse) : Except TransErr String :=
  if ¬ statusOk res.status then .error (.httpSimple res.status)
  else
    match res.json with
    | none => .error .parseSimple
    | some data =>
      match jsGet data "translatedText" with
      | some (Json.str t) => .ok t
      | _ =>
        match data with
        | Json.arr (d0 :: _) =>
          match jsGet d0 "translatedText" with
          | some v => if jsTruthy v then .ok (jsToString v) else .ok ""
          | none => .ok ""
        | _ => .ok ""

/-- `translateWithSimple`: endpoint check, then one fetch. -/
def translateWithSimple (net : FetchRequest → FetchResponse)
    (s : KissTranslatorSettings) (text : String) :
    List FetchRequest × Except TransErr String :=
  if s.apiUrl = "" then ([], .error .cfgSimpleUrl)
  else
    ([FetchRequest.simpleReq s.apiUrl (simplePayload s text)],
      simpleResponseResult (net (FetchRequest.simpleReq s.apiUrl (simplePayload s text))))

/-- The backend dispatch in `translateText`:
`apiType === "openai" ? translateWithOpenAI : translateWithSimple`. -/
def dispatch (net : FetchRequest → FetchResponse)
    (s : KissTranslatorSettings) (text : String) :
    List FetchRequest × Except TransErr String :=
  if s.apiType = "openai" then translateWithOpenAI net s text
  else translateWithSimple net s text

/-! ### Session state

Fields `settings`, `translated` (original id → annotation id) and `cache`
mirror the `TranslationSession` class fields.  `anns` (annotation node id →
its text content) and `hiddenIds` (ids carrying `kiss-hide-original`) model
the DOM state the session manipulates.  `requests` and `backendCalls` are
observation logs; `nextId` supplies fresh ids for created annotation
nodes. -/

structure SState where
  settings : KissTranslatorSettings
  translated : List (Nat × Nat)
  cache : List (String × String)
  anns : List (Nat × String)
  hiddenIds : List Nat
  requests : List FetchRequest
  backendCalls : List String
  nextId : Nat

namespace TranslationSession

/-- `updateSettings(settings)`: replace the settings snapshot. -/
def updateSettings (st : SState) (v : KissTranslatorSettings) : SState :=
  { st with settings := v }

/-- `restoreOriginalVisibility()`: remove the hide-original class from every
original currently in the pair map. -/
def restoreOriginalVisibility (st : SState) : SState :=
  { st with
    hiddenIds := st.hiddenIds.filter (fun h => ¬ st.translated.any (fun p => p.1 = h)) }

/-- `classList.add`: append the id unless already present. -/
def addOnce (l : List Nat) (x : Nat) : List Nat :=
  if l.contains x then l else l ++ [x]

/-- `hideOriginal()`: add the hide-original class to every paired
original, in map iteration order. -/
def hideOriginal (st : SState) : SState :=
  { st with hiddenIds := st.translated.foldl (fun acc p => addOnce acc p.1) st.hiddenIds }

/-- `applyOriginalVisibility()`. -/
def applyOriginalVisibility (st : SState) : SState :=
  if st.settings.hideOriginal then hideOriginal st
  else restoreOriginalVisibility st

/-- `clear()`, in source order: remove every tracked annotation node, empty
the pair map, then call `restoreOriginalVisibility` (which at that point
iterates the already-emptied map). -/
def clear (st : SState) : SState :=
  let st1 :=
    { st with anns := st.anns.filter (fun a => ¬ st.translated.any (fun p => p.2 = a.1)) }
  let st2 := { st1 with translated := [] }
  restoreOriginalVisibility st2

/-- `hasTranslations()`. -/
def hasTranslations (st : SState) : Bool :=
  st.translated.length > 0

/-- The cache-miss path of `translateText`: dispatch to the backend, log the
call, raise the empty-translation error on an empty result, else store in
the cache. -/
def translateTextMiss (net : FetchRequest → FetchResponse)
    (st : SState) (text : String) : SState × Except TransErr String :=
  let dres := dispatch net st.settings text
  let stM := { st with
    requests := st.requests ++ dres.1,
    backendCalls := st.backendCalls ++ [text] }
  match dres.2 with
  | .error e => (stM, .error e)
  | .ok t =>
    if t = "" then (stM, .error .emptyTranslation)
    else ({ stM with cache := setA stM.cache text t }, .ok t)

/-- `translateText`: `cache.get(text)` with JS truthiness (an empty cached
string does not count as a hit), else the miss path. -/
def translateText (net : FetchRequest → FetchResponse)
    (st : SState) (text : String) : SState × Except TransErr String :=
  match lookupA st.cache text with
  | some c => if c = "" then translateTextMiss net st text else (st, .ok c)
  | none => translateTextMiss net st text

/-- A selected block as the translation loop sees it: node identity plus
`innerText`. -/
structure Block where
  id : Nat
  innerText : String
  deriving DecidableEq, Repr

/-- `translateBlock`: normalise, skip short text, translate, skip an empty
result, else create the annotation node, insert it and register the pair. -/
def translateBlock (net : FetchRequest → FetchResponse)
    (st : SState) (b : Block) : SState × Option TransErr :=
  let text := normalizeText b.innerText
  if text = "" || text.length < 2 then (st, none)
  else
    match translateText net st text with
    | (st', .error e) => (st', some e)
    | (st', .ok translatedText) =>
      if translatedText = "" then (st', none)
      else
        (({ st' with
            anns := st'.anns ++ [(st'.nextId, translatedText)],
            translated := setA st'.translated b.id st'.nextId,
            nextId := st'.nextId + 1 } : SState), none)

/-- The sequential `for (const block of blocks) await this.translateBlock`
loop; the first failure aborts the rest. -/
def runBlocks (net : FetchRequest → FetchResponse) :
    SState → List Block → SState × Option TransErr
  | st, [] => (st, none)
  | st, b :: rest =>
    match translateBlock net st b with
    | (st', some e) => (st', some e)
    | (st', none) => runBlocks net st' rest

end TranslationSession

/-! ### The rendered tree and block selection (`collectBlocks`)

An element carries the data the selector reads: its tag name, class list,
the set of configured CSS selector strings it matches (`selMatches`; an
invalid selector string matches no element, which models the swallowed
selector exception), its `innerText`, and its element children.  `id` is
node identity.  Ancestor matching (`closest`) is evaluated against the
chain of ancestors inside the tree passed to `collectBlocks`, whose root
plays the part of the document root. -/

inductive Elem where
  | mk (id : Nat) (tag : String) (classes : List String)
       (selMatches : List String) (innerText : String) (children : List Elem)

def Elem.id : Elem → Nat
  | .mk i _ _ _ _ _ => i

def Elem.tag : Elem → String
  | .mk _ t _ _ _ _ => t

def Elem.classes : Elem → List String
  | .mk _ _ c _ _ _ => c

def Elem.selMatches : Elem → List String
  | .mk _ _ _ s _ _ => s

def Elem.innerText : Elem → String
  | .mk _ _ _ _ t _ => t

def Elem.children : Elem → List Elem
  | .mk _ _ _ _ _ cs => cs

def TRANSLATION_CLASS : String := "kiss-translated-block"

def HIDE_ORIGINAL_CLASS : String := "kiss-hide-original"

mutual
/-- All strict descendants of `e` in document (preorder) order, each paired
with its ancestor chain (nearest first); `anc` is the chain above `e`. -/
def elemDescPaths : Elem → List Elem → List (Elem × List Elem)
  | e@(.mk _ _ _ _ _ children), anc => elemsPaths children (e :: anc)

def elemsPaths : List Elem → List Elem → List (Elem × List Elem)
  | [], _ => []
  | c :: rest, anc => (c, anc) :: (elemDescPaths c anc ++ elemsPaths rest anc)
end

/-- The tag set of the `querySelectorAll` selector string, in source
order. -/
def blockTags : List String :=
  ["p", "li", "blockquote", "h1", "h2", "h3", "h4", "h5", "h6",
   "td", "th", "pre", "button", "label", "span", "div"]

def tagMatch (e : Elem) : Bool :=
  blockTags.contains e.tag

/-- `el.closest(...)` for a class selector: self or any ancestor carries the
class. -/
def closestHasClass (cls : String) (e : Elem) (anc : List Elem) : Bool :=
  e.classes.contains cls || anc.any (fun a => a.classes.contains cls)

/-- `isInSkipArea`: some non-empty configured skip selector matches the
element or one of its ancestors. -/
def isInSkipArea (s : KissTranslatorSettings) (e : Elem) (anc : List Elem) : Bool :=
  s.skipSelectors.any (fun sel =>
    sel ≠ "" &&
      (e.selMatches.contains sel || anc.any (fun a => a.selMatches.contains sel)))

/-- `el.querySelector("input, textarea, select")` finds some strict
descendant with one of those tags. -/
def hasInputControl (e : Elem) : Bool :=
  (elemDescPaths e []).any (fun p =>
    p.1.tag = "input" || p.1.tag = "textarea" || p.1.tag = "select")

/-- The filter body of `collectBlocks`, rejecting on the first failing
check in source order. -/
def blockOk (s : KissTranslatorSettings) (el : Elem) (anc : List Elem) : Bool :=
  if isInSkipArea s el anc then false
  else if el.classes.contains TRANSLATION_CLASS then false
  else if closestHasClass TRANSLATION_CLASS el anc then false
  else if hasInputControl el then false
  else if el.children.length > 0 then false
  else if normalizeText el.innerText = "" then false
  else if (normalizeText el.innerText).length < 2 then false
  else if (normalizeText el.innerText).length > 160 then false
  else true

/-- `root.querySelectorAll(selector)` filtered by the eligibility checks,
keeping each match's ancestor chain. -/
def collectPairs (s : KissTranslatorSettings) (root : Elem) :
    List (Elem × List Elem) :=
  ((elemDescPaths root []).filter (fun p => tagMatch p.1)).filter
    (fun p => blockOk s p.1 p.2)

/-- `collectBlocks(root)`: the selected elements in document order. -/
def collectBlocks (s : KissTranslatorSettings) (root : Elem) : List Elem :=
  (collectPairs s root).map Prod.fst

/-- The data `translateBlock` reads from a selected element. -/
def elemToBlock (e : Elem) : TranslationSession.Block :=
  TranslationSession.Block.mk e.id e.innerText

namespace TranslationSession

/-- `translate(rootOverride?)`: the resolved root (`none` models no preview
root being found), then `clear()`, block selection, the sequential loop and
finally `applyOriginalVisibility()`.  On a loop failure the error
propagates and the visibility step is not reached. -/
def translate (net : FetchRequest → FetchResponse)
    (st : SState) (root : Option Elem) : SState × Option TransErr :=
  match root with
  | none => (st, some .noTarget)
  | some r =>
    let st0 := clear st
    let blocks := (collectBlocks st0.settings r).map elemToBlock
    match runBlocks net st0 blocks with
    | (st', some e) => (st', some e)
    | (st', none) => (applyOriginalVisibility st', none)

end TranslationSession

/-! ### Cloud dictionary registry (`cloud.ts`) -/

/-- `CloudDictMeta`.  `Option` models an optional (`undefined`-able) field;
for the numeric fields the inner `Option Int` is the result of JS
`Number(...)` with `none` standing for `NaN`.  `votes` is passed through
unconverted. -/
structure CloudDictMeta where
  id : String
  scope : String
  name : Option String
  description : Option String
  downloadUrl : String
  updatedAt : Option (Option Int)
  entryCount : Option (Option Int)
  version : Option (Option Int)
  votes : Option Json
  size : Option (Option Int)

/-- `raw?.k ? Number(raw.k) : undefined`. -/
def condNumber (raw : Json) (k : String) : Option (Option Int) :=
  match jsGet raw k with
  | some v => if jsTruthy v then some (jsToNumber v) else none
  | none => none

/-- `normalizeMeta(raw, idx)`. -/
def normalizeMeta (raw : Json) (idx : Nat) : Option CloudDictMeta :=
  let scope := trimStr (jsToString (jsOr2 (jsGet raw "scope")
    (jsOr2 (jsGet raw "id") (Json.str ""))))
  let downloadUrl := trimStr (jsToString (jsOr2 (jsGet raw "downloadUrl")
    (jsOr2 (jsGet raw "url") (Json.str ""))))
  if scope = "" ∨ downloadUrl = "" then none
  else some
    { id := jsToString (jsOr2 (jsGet raw "id")
        (jsOrV (Json.str scope) (Json.num (Int.ofNat idx))))
      scope := scope
      name := some (jsToString (jsOr2 (jsGet raw "name") (Json.str scope)))
      description :=
        match jsGet raw "description" with
        | some v => if jsTruthy v then some (jsToString v) else none
        | none => none
      downloadUrl := downloadUrl
      updatedAt := condNumber raw "updatedAt"
      entryCount := condNumber raw "entryCount"
      version := condNumber raw "version"
      votes := jsGet raw "votes"
      size := condNumber raw "size" }

/-- `items.map((raw, idx) => normalizeMeta(raw, idx))` with a running
index. -/
def mapNormalize (start : Nat) : List Json → List (Option CloudDictMeta)
  | [] => []
  | raw :: rest => normalizeMeta raw start :: mapNormalize (start + 1) rest

inductive CloudErr where
  | badStatus (status : Nat)
  | parseFailed
  deriving DecidableEq, Repr

/-- `fetchRegistry(url)`: empty url short-circuits to `[]` with no request;
non-2xx status is an error; an unparseable body is an error (reading
`res.json` throws); the item list comes from `data.dictionaries` when that
is an array, else from `data` itself when it is an array, else is empty;
each item is normalised and the nulls are dropped.  The first component is
the log of requested urls. -/
def fetchRegistry (net : String → FetchResponse) (url : String) :
    List String × Except CloudErr (List CloudDictMeta) :=
  if url = "" then ([], .ok [])
  else
    let res := net url
    if res.status < 200 ∨ 300 ≤ res.status then
      ([url], .error (.badStatus res.status))
    else
      match res.json with
      | none => ([url], .error .parseFailed)
      | some data =>
        let items : List Json :=
          match jsGet data "dictionaries" with
          | some (Json.arr xs) => xs
          | _ =>
            match data with
            | Json.arr xs => xs
            | _ => []
        ([url], .ok ((mapNormalize 0 items).filterMap id))

/-! ### Case lemmas for the translation pipeline -/

namespace TranslationSession

theorem translateTextMiss_err (net : FetchRequest → FetchResponse)
    (st : SState) (text : String) (rs : List FetchRequest) (e : TransErr)
    (h : dispatch net st.settings text = (rs, .error e)) :
    translateTextMiss net st text =
      ({ st with requests := st.requests ++ rs,
                 backendCalls := st.backendCalls ++ [text] }, .error e) := by
  simp only [translateTextMiss, h]

theorem translateTextMiss_empty (net : FetchRequest → FetchResponse)
    (st : SState) (text : String) (rs : List FetchRequest)
    (h : dispatch net st.settings text = (rs, .ok "")) :
    translateTextMiss net st text =
      ({ st with requests := st.requests ++ rs,
                 backendCalls := st.backendCalls ++ [text] },
        .error .emptyTranslation) := by
  simp [translateTextMiss, h]

theorem translateTextMiss_ok (net : FetchRequest → FetchResponse)
    (st : SState) (text : String) (rs : List FetchRequest) (v : String)
    (h : dispatch net st.settings text = (rs, .ok v)) (hv : v ≠ "") :
    translateTextMiss net st text =
      ({ st with requests := st.requests ++ rs,
                 backendCalls := st.backendCalls ++ [text],
                 cache := setA st.cache text v }, .ok v) := by
  simp [translateTextMiss, h, hv]

theorem translateText_hit (net : FetchRequest → FetchResponse)
    (st : SState) (text c : String)
    (h : lookupA st.cache text = some c) (hc : c ≠ "") :
    translateText net st text = (st, .ok c) := by
  simp [translateText, h, hc]

theorem translateText_miss (net : FetchRequest → FetchResponse)
    (st : SState) (text : String)
    (h : lookupA st.cache text = none ∨ lookupA st.cache text = some "") :
    translateText net st text = translateTextMiss net st text := by
  rcases h with h | h <;> simp only [translateText, h, if_pos]

theorem translateText_ok_nonempty (net : FetchRequest → FetchResponse)
    (st st' : SState) (text v : String)
    (h : translateText net st text = (st', .ok v)) : v ≠ "" := by
  by_cases hm : ∃ c, lookupA st.cache text = some c ∧ c ≠ ""
  · obtain ⟨c, hc, hcne⟩ := hm
    rw [translateText_hit net st text c hc hcne] at h
    cases h
    exact hcne
  · have hmiss : lookupA st.cache text = none ∨ lookupA st.cache text = some "" := by
      cases hl : lookupA st.cache text with
      | none => exact Or.inl rfl
      | some c =>
        by_cases hce : c = ""
        · exact Or.inr (hce ▸ rfl)
        · exact absurd ⟨c, hl, hce⟩ hm
    rw [translateText_miss net st text hmiss] at h
    rcases hd : dispatch net st.settings text with ⟨rs, r⟩
    cases r with
    | error e => rw [translateTextMiss_err net st text rs e hd] at h; cases h
    | ok t =>
      by_cases ht : t = ""
      · subst ht
        rw [translateTextMiss_empty net st text rs hd] at h
        cases h
      · rw [translateTextMiss_ok net st text rs t hd ht] at h
        cases h
        exact ht

theorem translateBlock_short (net : FetchRequest → FetchResponse)
    (st : SState) (b : Block)
    (h : normalizeText b.innerText = "" ∨ (normalizeText b.innerText).length < 2) :
    translateBlock net st b = (st, none) := by
  have hb : (normalizeText b.innerText = "" || (normalizeText b.innerText).length < 2) = true := by
    rcases h with h | h <;> simp [h]
  simp only [translateBlock, hb, if_pos]

theorem translateBlock_err (net : FetchRequest → FetchResponse)
    (st st' : SState) (b : Block) (e : TransErr)
    (hlen : ¬ (normalizeText b.innerText = "" ||
               (normalizeText b.innerText).length < 2) = true)
    (h : translateText net st (normalizeText b.innerText) = (st', .error e)) :
    translateBlock net st b = (st', some e) := by
  simp only [translateBlock, h]
  rw [if_neg hlen]

theorem translateBlock_ok (net : FetchRequest → FetchResponse)
    (st st' : SState) (b : Block) (v : String)
    (hlen : ¬ (normalizeText b.innerText = "" ||
               (normalizeText b.innerText).length < 2) = true)
    (h : translateText net st (normalizeText b.innerText) = (st', .ok v)) :
    translateBlock net st b =
      ({ st' with anns := st'.anns ++ [(st'.nextId, v)],
                  translated := setA st'.translated b.id st'.nextId,
                  nextId := st'.nextId + 1 }, none) := by
  have hv : v ≠ "" := translateText_ok_nonempty net st st' _ v h
  simp only [translateBlock, h]
  rw [if_neg hlen]
  simp [hv]

theorem runBlocks_append (net : FetchRequest → FetchResponse)
    (xs ys : List Block) (st : SState) :
    runBlocks net st (xs ++ ys) =
      match runBlocks net st xs with
      | (st', none) => runBlocks net st' ys
      | (st', some e) => (st', some e) := by
  induction xs generalizing st with
  | nil => simp [runBlocks]
  | cons b rest ih =>
    simp only [List.cons_append, runBlocks]
    rcases hb : translateBlock net st b with ⟨st', oe⟩
    cases oe with
    | some e => simp
    | none => simp [ih st']

theorem runBlocks_append_ok (net : FetchRequest → FetchResponse)
    (xs ys : List Block) (st st1 : SState)
    (h : runBlocks net st xs = (st1, none)) :
    runBlocks net st (xs ++ ys) = runBlocks net st1 ys := by
  rw [runBlocks_append, h]

end TranslationSession

namespace TranslationSession

theorem translateTextMiss_frame (net : FetchRequest → FetchResponse)
    (st st' : SState) (text : String) (r : Except TransErr String)
    (h : translateTextMiss net st text = (st', r)) :
    st'.settings = st.settings ∧ st'.anns = st.anns ∧
    st'.translated = st.translated ∧ st'.hiddenIds = st.hiddenIds ∧
    st'.nextId = st.nextId := by
  rcases hd : dispatch net st.settings text with ⟨rs, dr⟩
  cases dr with
  | error e =>
    rw [translateTextMiss_err net st text rs e hd] at h
    cases h
    exact ⟨rfl, rfl, rfl, rfl, rfl⟩
  | ok v =>
    by_cases hv : v = ""
    · subst hv
      rw [translateTextMiss_empty net st text rs hd] at h
      cases h
      exact ⟨rfl, rfl, rfl, rfl, rfl⟩
    · rw [translateTextMiss_ok net st text rs v hd hv] at h
      cases h
      exact ⟨rfl, rfl, rfl, rfl, rfl⟩

theorem translateText_frame (net : FetchRequest → FetchResponse)
    (st st' : SState) (text : String) (r : Except TransErr String)
    (h : translateText net st text = (st', r)) :
    st'.settings = st.settings ∧ st'.anns = st.anns ∧
    st'.translated = st.translated ∧ st'.hiddenIds = st.hiddenIds ∧
    st'.nextId = st.nextId := by
  rcases hl : lookupA st.cache text with _ | c
  · rw [translateText_miss net st text (Or.inl hl)] at h
    exact translateTextMiss_frame net st st' text r h
  · by_cases hc : c = ""
    · rw [translateText_miss net st text (Or.inr (hc ▸ hl))] at h
      exact translateTextMiss_frame net st st' text r h
    · rw [translateText_hit net st text c hl hc] at h
      cases h
      exact ⟨rfl, rfl, rfl, rfl, rfl⟩

theorem translateText_err_cache (net : FetchRequest → FetchResponse)
    (st st' : SState) (text : String) (e : TransErr)
    (h : translateText net st text = (st', .error e)) :
    st'.cache = st.cache := by
  have hmiss : translateTextMiss net st text = (st', Except.error e) →
      st'.cache = st.cache := by
    intro h'
    rcases hd : dispatch net st.settings text with ⟨rs, dr⟩
    cases dr with
    | error e' =>
      rw [translateTextMiss_err net st text rs e' hd] at h'
      cases h'
      rfl
    | ok v =>
      by_cases hv : v = ""
      · subst hv
        rw [translateTextMiss_empty net st text rs hd] at h'
        cases h'
        rfl
      · rw [translateTextMiss_ok net st text rs v hd hv] at h'
        cases h'
  rcases hl : lookupA st.cache text with _ | c
  · rw [translateText_miss net st text (Or.inl hl)] at h
    exact hmiss h
  · by_cases hc : c = ""
    · rw [translateText_miss net st text (Or.inr (hc ▸ hl))] at h
      exact hmiss h
    · rw [translateText_hit net st text c hl hc] at h
      cases h

/-- Complete case analysis of one `translateBlock` step. -/
theorem translateBlock_cases (net : FetchRequest → FetchResponse)
    (st st' : SState) (b : Block) (oe : Option TransErr)
    (h : translateBlock net st b = (st', oe)) :
    (st' = st ∧ oe = none ∧
      (normalizeText b.innerText = "" ∨ (normalizeText b.innerText).length < 2)) ∨
    (∃ stT e, translateText net st (normalizeText b.innerText) = (stT, .error e) ∧
      st' = stT ∧ oe = some e) ∨
    (∃ stT v, translateText net st (normalizeText b.innerText) = (stT, .ok v) ∧
      v ≠ "" ∧
      st' = { stT with anns := stT.anns ++ [(stT.nextId, v)],
                       translated := setA stT.translated b.id stT.nextId,
                       nextId := stT.nextId + 1 } ∧ oe = none) := by
  by_cases hshort : (normalizeText b.innerText = "" ||
      (normalizeText b.innerText).length < 2) = true
  · left
    have hs : normalizeText b.innerText = "" ∨
        (normalizeText b.innerText).length < 2 := by
      simpa using hshort
    rw [translateBlock_short net st b hs] at h
    simp only [Prod.mk.injEq] at h
    exact ⟨h.1.symm, h.2.symm, hs⟩
  · rcases ht : translateText net st (normalizeText b.innerText) with ⟨stT, r⟩
    cases r with
    | error e =>
      rw [translateBlock_err net st stT b e hshort ht] at h
      simp only [Prod.mk.injEq] at h
      exact Or.inr (Or.inl ⟨stT, e, rfl, h.1.symm, h.2.symm⟩)
    | ok v =>
      have hv : v ≠ "" := translateText_ok_nonempty net st stT _ v ht
      rw [translateBlock_ok net st stT b v hshort ht] at h
      simp only [Prod.mk.injEq] at h
      exact Or.inr (Or.inr ⟨stT, v, rfl, hv, h.1.symm, h.2.symm⟩)

theorem translateBlock_err_frame (net : FetchRequest → FetchResponse)
    (st st' : SState) (b : Block) (e : TransErr)
    (h : translateBlock net st b = (st', some e)) :
    st'.anns = st.anns ∧ st'.translated = st.translated ∧
    st'.cache = st.cache ∧ st'.settings = st.settings ∧
    st'.hiddenIds = st.hiddenIds ∧ st'.nextId = st.nextId := by
  rcases translateBlock_cases net st st' b (some e) h with
    ⟨_, hnone, _⟩ | ⟨stT, e', ht, hst, _⟩ | ⟨stT, v, _, _, _, hnone⟩
  · cases hnone
  · subst hst
    obtain ⟨h1, h2, h3, h4, h5⟩ := translateText_frame net st st' _ _ ht
    exact ⟨h2, h3, translateText_err_cache net st st' _ e' ht, h1, h4, h5⟩
  · cases hnone

theorem translateBlock_any_frame (net : FetchRequest → FetchResponse)
    (st st' : SState) (b : Block) (oe : Option TransErr)
    (h : translateBlock net st b = (st', oe)) :
    st'.settings = st.settings ∧ st'.hiddenIds = st.hiddenIds := by
  rcases translateBlock_cases net st st' b oe h with
    ⟨hst, _, _⟩ | ⟨stT, e', ht, hst, _⟩ | ⟨stT, v, ht, _, hst, _⟩
  · subst hst
    exact ⟨rfl, rfl⟩
  · subst hst
    obtain ⟨h1, _, _, h4, _⟩ := translateText_frame net st st' _ _ ht
    exact ⟨h1, h4⟩
  · subst hst
    obtain ⟨h1, _, _, h4, _⟩ := translateText_frame net st stT _ _ ht
    exact ⟨h1, h4⟩

theorem runBlocks_any_frame (net : FetchRequest → FetchResponse)
    (bs : List Block) (st st' : SState) (oe : Option TransErr)
    (h : runBlocks net st bs = (st', oe)) :
    st'.settings = st.settings ∧ st'.hiddenIds = st.hiddenIds := by
  induction bs generalizing st with
  | nil =>
    rw [runBlocks] at h
    cases h
    exact ⟨rfl, rfl⟩
  | cons b rest ih =>
    rw [runBlocks] at h
    rcases hb : translateBlock net st b with ⟨stB, oeB⟩
    rw [hb] at h
    obtain ⟨hs, hh⟩ := translateBlock_any_frame net st stB b oeB hb
    cases oeB with
    | some e =>
      cases h
      exact ⟨hs, hh⟩
    | none =>
      obtain ⟨hs', hh'⟩ := ih stB h
      exact ⟨hs'.trans hs, hh'.trans hh⟩

theorem clear_fields (st : SState) :
    (clear st).translated = [] ∧
    (clear st).anns =
      st.anns.filter (fun a => ¬ st.translated.any (fun p => p.2 = a.1)) ∧
    (clear st).cache = st.cache ∧
    (clear st).settings = st.settings ∧
    (clear st).hiddenIds = st.hiddenIds ∧
    (clear st).requests = st.requests ∧
    (clear st).backendCalls = st.backendCalls ∧
    (clear st).nextId = st.nextId := by
  refine ⟨rfl, rfl, rfl, rfl, ?_, rfl, rfl, rfl⟩
  show st.hiddenIds.filter _ = st.hiddenIds
  simp [List.filter_eq_self]

end TranslationSession

/-! ### Claim C1 (`clear()` and hidden originals) -/

def settingsC1 : KissTranslatorSettings :=
  ⟨"openai", "http://u", "k", "m", "auto", "zh", "", "T {text}", [], true, false⟩

/-- A session tracking one pair: original node 1 (currently hidden because
`hideOriginal` was applied) mapped to annotation node 2. -/
def stC1 : SState := ⟨settingsC1, [(1, 2)], [], [(2, "你好")], [1], [], [], 3⟩

/-- C1: evaluation of `clear()` at the failing input.  `clear()` does remove
the tracked annotation node and does empty the pair mapping, but the
previously-paired original (node 1) keeps the `kiss-hide-original` class:
the source empties `this.translated` before calling
`restoreOriginalVisibility`, which therefore iterates an empty map and
removes the class from nothing — contradicting the claim that after
`clear()` no previously-paired original remains hidden. -/
theorem clear_at_failing_input :
    (TranslationSession.clear stC1).translated = [] ∧
    (TranslationSession.clear stC1).anns = [] ∧
    (TranslationSession.clear stC1).hiddenIds = [1] :=
  ⟨rfl, rfl, rfl⟩

/-! ### Claim C9 (`updateSettings` frame) -/

/-- C9: `updateSettings` changes only the settings snapshot: the pair
mapping, the annotation nodes, the hidden flags and the cache are untouched,
and a cache entry made before the update is still served afterwards without
touching the backend. -/
theorem updateSettings_frame_spec :
    ∀ (st : SState) (v : KissTranslatorSettings),
      (TranslationSession.updateSettings st v).settings = v ∧
      (TranslationSession.updateSettings st v).translated = st.translated ∧
      (TranslationSession.updateSettings st v).cache = st.cache ∧
      (TranslationSession.updateSettings st v).anns = st.anns ∧
      (TranslationSession.updateSettings st v).hiddenIds = st.hiddenIds ∧
      ∀ (net : FetchRequest → FetchResponse) (t c : String),
        lookupA st.cache t = some c → c ≠ "" →
        TranslationSession.translateText net (TranslationSession.updateSettings st v) t =
          (TranslationSession.updateSettings st v, Except.ok c) :=
  fun st v =>
    ⟨rfl, rfl, rfl, rfl, rfl, fun net t c h hc =>
      TranslationSession.translateText_hit net _ t c h hc⟩

def settingsC9 : KissTranslatorSettings :=
  ⟨"simple", "http://s", "", "", "en", "zh", "", "u", [], false, false⟩

def settingsC9b : KissTranslatorSettings :=
  ⟨"openai", "http://o", "key", "m2", "fr", "ja", "s", "{text}", ["x"], true, true⟩

def stC9 : SState := ⟨settingsC9, [(1, 2)], [("hi", "你好")], [(2, "你好")], [1], [], ["hi"], 3⟩

/-- A backend that always fails, to witness that the post-update cache hit
never reaches the network. -/
def netC9 : FetchRequest → FetchResponse := fun _ => ⟨500, none, ""⟩

theorem updateSettings_frame_spec_witness :
    (TranslationSession.updateSettings stC9 settingsC9b).cache = stC9.cache ∧
    TranslationSession.translateText netC9
        (TranslationSession.updateSettings stC9 settingsC9b) "hi" =
      (TranslationSession.updateSettings stC9 settingsC9b, Except.ok "你好") := by
  obtain ⟨_, _, hc, _, _, hserve⟩ := updateSettings_frame_spec stC9 settingsC9b
  exact ⟨hc, hserve netC9 "hi" "你好" rfl (by decide)⟩

/-! ### Claim C7 (chat-style message construction) -/

def settingsC7 : KissTranslatorSettings :=
  ⟨"openai", "http://u", "k", "m", "en", "zh", "",
    "Translate {text} from {from} to {to}", [], false, false⟩

/-- C7: under a valid chat-style configuration the backend issues exactly
one request whose message list is the optional system message (present iff
the configured system prompt is non-blank) followed by the mandatory user
message, with the `{text}`/`{from}`/`{to}` placeholders substituted by
`fillTemplate`; concretely the template
`"Translate {text} from {from} to {to}"` with text `"Hello"`,
`fromLang = "en"`, `toLang = "zh"` produces user content
`"Translate Hello from en to zh"`, and repeated placeholder occurrences are
all substituted. -/
theorem openai_message_shape :
    (∀ (net : FetchRequest → FetchResponse) (s : KissTranslatorSettings) (text : String),
      s.apiUrl ≠ "" → s.apiKey ≠ "" → s.model ≠ "" → trimStr s.userPrompt ≠ "" →
      (translateWithOpenAI net s text).1 =
        [FetchRequest.openaiReq s.apiUrl s.apiKey
          (ChatBody.mk s.model
            ((if trimStr s.systemPrompt ≠ "" then
                [ChatMsg.mk "system" (fillTemplate s s.systemPrompt text)]
              else []) ++ [ChatMsg.mk "user" (fillTemplate s s.userPrompt text)])
            "0.2" false)]) ∧
    fillTemplate settingsC7 "Translate {text} from {from} to {to}" "Hello" =
      "Translate Hello from en to zh" ∧
    fillTemplate settingsC7 "{text} {text} {from} {from} {to} {to}" "Hi" =
      "Hi Hi en en zh zh" := by
  refine ⟨?_, by decide, by decide⟩
  intro net s text h1 h2 h3 h4
  simp only [translateWithOpenAI, h1, h2, h3, h4, if_neg]
  rfl

def netC7 : FetchRequest → FetchResponse := fun _ => ⟨200, some Json.null, ""⟩

theorem openai_message_shape_witness :
    (translateWithOpenAI netC7 settingsC7 "Hello").1 =
      [FetchRequest.openaiReq "http://u" "k"
        (ChatBody.mk "m" [ChatMsg.mk "user" "Translate Hello from en to zh"]
          "0.2" false)] := by
  have h := openai_message_shape.1 netC7 settingsC7 "Hello"
    (by decide) (by decide) (by decide) (by decide)
  rw [h]
  decide

/-! ### Claim C8 (non-string chat content) -/

def settingsC8 : KissTranslatorSettings :=
  ⟨"openai", "http://u", "k", "m", "en", "zh", "", "T {text}", [], false, false⟩

/-- A 2xx response whose `choices[0].message.content` is the number `5`. -/
def respC8 : FetchResponse :=
  ⟨200,
   some (Json.obj [("choices",
     Json.arr [Json.obj [("message", Json.obj [("content", Json.num 5)])]])]),
   "raw-body"⟩

def netC8 : FetchRequest → FetchResponse := fun _ => respC8

def stC8 : SState := ⟨settingsC8, [], [], [], [], [], [], 0⟩

/-- C8 counterexample: at a 2xx chat-style response whose
`choices[0].message.content` is a number (not a string), the backend call
is not a hard failure at all — it returns `ok ""` — so no error carrying
the raw response is raised; the only failure the session sees is the
generic empty-translation error produced later by `translateText`. -/
theorem openai_nonstring_content_counterexample :
    (translateWithOpenAI netC8 settingsC8 "hi").2 = Except.ok "" ∧
    (TranslationSession.translateText netC8 stC8 "hi").2 =
      Except.error TransErr.emptyTranslation :=
  ⟨rfl, rfl⟩

/-- C8 (amended): for every 2xx chat-style response that parses as JSON but
whose `choices[0].message.content` is missing or not a string, the backend
call succeeds with the empty string — there is no hard failure and the raw
response is not surfaced — and `translateText` then reports the generic
empty-translation error; only an unparseable body (or a non-2xx status)
produces a hard failure. -/
theorem openai_nonstring_content_amended :
    ∀ (net : FetchRequest → FetchResponse) (s : KissTranslatorSettings)
      (text : String) (data : Json),
      s.apiType = "openai" →
      s.apiUrl ≠ "" → s.apiKey ≠ "" → s.model ≠ "" → trimStr s.userPrompt ≠ "" →
      statusOk (net (openAIRequest s text)).status = true →
      (net (openAIRequest s text)).json = some data →
      extractOpenAIContent data = none →
      (translateWithOpenAI net s text).2 = Except.ok "" ∧
      (∀ st : SState, st.settings = s → lookupA st.cache text = none →
        (TranslationSession.translateText net st text).2 =
          Except.error TransErr.emptyTranslation) := by
  intro net s text data htype h1 h2 h3 h4 hok hjson hex
  have hcall : translateWithOpenAI net s text =
      ([openAIRequest s text], Except.ok "") := by
    simp only [translateWithOpenAI, h1, h2, h3, h4, if_neg]
    simp only [openAIResponseResult, hok, hjson, hex]
    simp
  refine ⟨by rw [hcall], ?_⟩
  intro st hst hmiss
  have hdisp : dispatch net st.settings text = ([openAIRequest s text], Except.ok "") := by
    rw [hst]
    simp only [dispatch, htype, if_pos]
    exact hcall
  rw [TranslationSession.translateText_miss net st text (Or.inl hmiss),
    TranslationSession.translateTextMiss_empty net st text _ hdisp]

theorem openai_nonstring_content_amended_witness :
    (translateWithOpenAI netC8 settingsC8 "hello").2 = Except.ok "" ∧
    (TranslationSession.translateText netC8
        (⟨settingsC8, [], [], [], [], [], [], 0⟩ : SState) "hello").2 =
      Except.error TransErr.emptyTranslation := by
  obtain ⟨h1, h2⟩ := openai_nonstring_content_amended netC8 settingsC8 "hello"
    (Json.obj [("choices",
      Json.arr [Json.obj [("message", Json.obj [("content", Json.num 5)])]])])
    rfl (by decide) (by decide) (by decide) (by decide) rfl rfl rfl
  exact ⟨h1, h2 ⟨settingsC8, [], [], [], [], [], [], 0⟩ rfl rfl⟩

/-! ### Claim C10 (cloud registry normalisation) -/

theorem normalizeMeta_some (raw : Json) (idx : Nat) (m : CloudDictMeta)
    (h : normalizeMeta raw idx = some m) :
    m.scope ≠ "" ∧ m.downloadUrl ≠ "" := by
  simp only [normalizeMeta] at h
  split at h
  · cases h
  · rename_i hcond
    push_neg at hcond
    cases h
    exact ⟨hcond.1, hcond.2⟩

theorem mem_mapNormalize (start : Nat) (items : List Json) (m : CloudDictMeta)
    (h : m ∈ (mapNormalize start items).filterMap id) :
    ∃ raw idx, normalizeMeta raw idx = some m := by
  induction items generalizing start with
  | nil => simp [mapNormalize] at h
  | cons raw rest ih =>
    simp only [mapNormalize, List.filterMap_cons] at h
    cases hn : normalizeMeta raw start with
    | none =>
      rw [hn] at h
      exact ih (start + 1) h
    | some m' =>
      rw [hn] at h
      simp only [id_eq, List.mem_cons] at h
      rcases h with rfl | h
      · exact ⟨raw, start, hn⟩
      · exact ih (start + 1) h

/-- C10: every entry in a successful `fetchRegistry` result has a non-empty
scope and a non-empty download url; a raw item with neither `scope` nor `id`,
or with neither `downloadUrl` nor `url`, normalises to null and is silently
dropped instead of raising an error; and `fetchRegistry` of the empty url
returns the empty list without issuing any request. -/
theorem fetchRegistry_spec :
    (∀ (net : String → FetchResponse) (url : String) (reqs : List String)
        (ms : List CloudDictMeta),
      fetchRegistry net url = (reqs, Except.ok ms) →
      ∀ m ∈ ms, m.scope ≠ "" ∧ m.downloadUrl ≠ "") ∧
    (∀ (raw : Json) (idx : Nat),
      jsGet raw "scope" = none → jsGet raw "id" = none →
      normalizeMeta raw idx = none) ∧
    (∀ (raw : Json) (idx : Nat),
      jsGet raw "downloadUrl" = none → jsGet raw "url" = none →
      normalizeMeta raw idx = none) ∧
    (∀ net : String → FetchResponse, fetchRegistry net "" = ([], Except.ok [])) := by
  refine ⟨?_, ?_, ?_, fun net => rfl⟩
  · intro net url reqs ms hreg m hm
    simp only [fetchRegistry] at hreg
    split at hreg
    · simp only [Prod.mk.injEq, Except.ok.injEq] at hreg
      rw [← hreg.2] at hm
      simp at hm
    · split at hreg
      · simp only [Prod.mk.injEq] at hreg
        cases hreg.2
      · split at hreg
        · simp only [Prod.mk.injEq] at hreg
          cases hreg.2
        · simp only [Prod.mk.injEq, Except.ok.injEq] at hreg
          rw [← hreg.2] at hm
          obtain ⟨raw, idx, hn⟩ := mem_mapNormalize 0 _ m hm
          exact normalizeMeta_some raw idx m hn
  · intro raw idx h1 h2
    simp [normalizeMeta, h1, h2, jsOr2, jsToString, trimStr, trimWsL]
  · intro raw idx h1 h2
    simp [normalizeMeta, h1, h2, jsOr2, jsToString, trimStr, trimWsL]

def rawGoodC10 : Json := Json.obj [("id", Json.str "d1"), ("url", Json.str "http://dl")]

/-- A raw item with neither `scope` nor `id`: dropped. -/
def rawNoIdC10 : Json := Json.obj [("url", Json.str "http://dl")]

/-- A raw item with neither `downloadUrl` nor `url`: dropped. -/
def rawNoUrlC10 : Json := Json.obj [("scope", Json.str "s1")]

def netC10 : String → FetchResponse :=
  fun _ => ⟨200,
    some (Json.obj [("dictionaries", Json.arr [rawGoodC10, rawNoIdC10, rawNoUrlC10])]),
    ""⟩

theorem fetchRegistry_spec_witness :
    (∀ m ∈ (fetchRegistry netC10 "http://reg").2.toOption.getD [],
      m.scope ≠ "" ∧ m.downloadUrl ≠ "") ∧
    normalizeMeta rawNoIdC10 0 = none ∧
    normalizeMeta rawNoUrlC10 1 = none ∧
    fetchRegistry netC10 "" = ([], Except.ok []) := by
  refine ⟨?_, fetchRegistry_spec.2.1 rawNoIdC10 0 rfl rfl,
    fetchRegistry_spec.2.2.1 rawNoUrlC10 1 rfl rfl,
    fetchRegistry_spec.2.2.2 netC10⟩
  intro m hm
  refine fetchRegistry_spec.1 netC10 "http://reg" ["http://reg"]
    ((fetchRegistry netC10 "http://reg").2.toOption.getD []) rfl m hm

/-! ### Claim C5 (block selection) -/

theorem closestHasClass_of_contains (cls : String) (e : Elem) (anc : List Elem)
    (h : e.classes.contains cls = true) :
    closestHasClass cls e anc = true := by
  simp only [closestHasClass, Bool.or_eq_true]
  exact Or.inl h

/-- The reject-on-first-match filter chain is equivalent to the conjunction
of the individual conditions (the separate own-class check is absorbed by
`closest`, which also inspects the element itself). -/
theorem blockOk_iff (s : KissTranslatorSettings) (el : Elem) (anc : List Elem) :
    blockOk s el anc = true ↔
      (isInSkipArea s el anc = false ∧
       closestHasClass TRANSLATION_CLASS el anc = false ∧
       hasInputControl el = false ∧
       el.children = [] ∧
       2 ≤ (normalizeText el.innerText).length ∧
       (normalizeText el.innerText).length ≤ 160) := by
  unfold blockOk
  split_ifs with h1 h2 h3 h4 h5 h6 h7 h8
  · simp_all
  · have := closestHasClass_of_contains TRANSLATION_CLASS el anc (by simpa using h2)
    simp_all
  · simp_all
  · simp_all
  · simp only [false_iff]
    rintro ⟨-, -, -, hch, -, -⟩
    rw [hch] at h5
    simp at h5
  · simp only [false_iff]
    rintro ⟨-, -, -, -, hlen, -⟩
    rw [h6] at hlen
    exact absurd hlen (by decide)
  · simp only [false_iff]
    rintro ⟨-, -, -, -, hlen, -⟩
    omega
  · simp only [false_iff]
    rintro ⟨-, -, -, -, -, hlen⟩
    omega
  · simp only [true_iff]
    refine ⟨by simpa using h1, by simpa using h3, by simpa using h4,
      List.length_eq_zero.mp (by omega), by omega, by omega⟩

theorem mem_collectPairs (s : KissTranslatorSettings) (root el : Elem)
    (anc : List Elem) :
    (el, anc) ∈ collectPairs s root ↔
      ((el, anc) ∈ elemDescPaths root [] ∧ tagMatch el = true ∧
        blockOk s el anc = true) := by
  constructor
  · intro h
    have h2 := List.mem_filter.mp h
    have h3 := List.mem_filter.mp h2.1
    exact ⟨h3.1, h3.2, h2.2⟩
  · rintro ⟨hmem, htag, hok⟩
    exact List.mem_filter.mpr ⟨List.mem_filter.mpr ⟨hmem, htag⟩, hok⟩

theorem mem_collectBlocks (s : KissTranslatorSettings) (root el : Elem)
    (h : el ∈ collectBlocks s root) :
    ∃ anc, (el, anc) ∈ elemDescPaths root [] ∧ tagMatch el = true ∧
      blockOk s el anc = true := by
  rw [collectBlocks] at h
  obtain ⟨⟨el', anc⟩, hmem, heq⟩ := List.mem_map.mp h
  cases heq
  exact ⟨anc, (mem_collectPairs s root el' anc).mp hmem⟩

def pOne : Elem := Elem.mk 1 "p" [] [] "x" []

def pLong : Elem := Elem.mk 2 "p" [] [] (String.mk (List.replicate 161 'a')) []

def pSkipped : Elem := Elem.mk 4 "p" [] [] (String.mk (List.replicate 50 'c')) []

def skipDiv : Elem := Elem.mk 3 "div" [] ["sidebar"] "" [pSkipped]

def pInAnn : Elem := Elem.mk 6 "p" [] [] (String.mk (List.replicate 50 'd')) []

def annDiv : Elem := Elem.mk 5 "div" ["kiss-translated-block"] [] "" [pInAnn]

def pFifty : Elem := Elem.mk 7 "p" [] [] (String.mk (List.replicate 50 'b')) []

/-- The tree of §8 of the specification: a length-1 paragraph, a length-161
paragraph, a paragraph inside a skip-selector match, a paragraph inside an
annotation node, and one eligible length-50 leaf paragraph. -/
def treeC5 : Elem := Elem.mk 0 "div" [] [] "" [pOne, pLong, skipDiv, annDiv, pFifty]

def settingsC5 : KissTranslatorSettings :=
  ⟨"openai", "http://u", "k", "m", "en", "zh", "", "{text}", ["sidebar"], false, false⟩

set_option maxRecDepth 8000 in
/-- C5: an element occurrence is selected by `collectBlocks` iff it is a
descendant of the root matching the textual tag set, is not within a
skip-selector match, is neither an annotation node nor inside one, contains
no input control, has no element children, and its normalized text length
lies in `[2, 160]`; in particular elements of normalized length 1 or 161 are
never selected, and in the concrete tree of §8 exactly the one length-50
leaf paragraph is selected. -/
theorem collectBlocks_spec :
    (∀ (s : KissTranslatorSettings) (root el : Elem) (anc : List Elem),
      (el, anc) ∈ collectPairs s root ↔
        ((el, anc) ∈ elemDescPaths root [] ∧ tagMatch el = true ∧
         isInSkipArea s el anc = false ∧
         closestHasClass TRANSLATION_CLASS el anc = false ∧
         hasInputControl el = false ∧
         el.children = [] ∧
         2 ≤ (normalizeText el.innerText).length ∧
         (normalizeText el.innerText).length ≤ 160)) ∧
    (∀ (s : KissTranslatorSettings) (root el : Elem),
      (normalizeText el.innerText).length = 1 → el ∉ collectBlocks s root) ∧
    (∀ (s : KissTranslatorSettings) (root el : Elem),
      (normalizeText el.innerText).length = 161 → el ∉ collectBlocks s root) ∧
    collectBlocks settingsC5 treeC5 = [pFifty] := by
  refine ⟨?_, ?_, ?_, rfl⟩
  · intro s root el anc
    rw [mem_collectPairs, blockOk_iff]
  · intro s root el hlen hmem
    obtain ⟨anc, -, -, hok⟩ := mem_collectBlocks s root el hmem
    obtain ⟨-, -, -, -, h2, -⟩ := (blockOk_iff s el anc).mp hok
    omega
  · intro s root el hlen hmem
    obtain ⟨anc, -, -, hok⟩ := mem_collectBlocks s root el hmem
    obtain ⟨-, -, -, -, -, h160⟩ := (blockOk_iff s el anc).mp hok
    omega

set_option maxRecDepth 8000 in
theorem collectBlocks_spec_witness :
    pOne ∉ collectBlocks settingsC5 treeC5 ∧
    pLong ∉ collectBlocks settingsC5 treeC5 := by
  exact ⟨collectBlocks_spec.2.1 settingsC5 treeC5 pOne rfl,
         collectBlocks_spec.2.2.1 settingsC5 treeC5 pLong rfl⟩

/-! ### Claim C3 (first failure aborts the sequence, no rollback) -/

/-- C3: if the blocks before `b` all succeed and translating `b` throws,
then the whole loop stops at `b` with that error (no later block is
processed), the annotations and pairs registered for the earlier blocks are
exactly preserved (no rollback, nothing added), and `translate()` on a root
whose selected blocks are that sequence propagates the same error to its
caller. -/
theorem error_aborts_sequence :
    ∀ (net : FetchRequest → FetchResponse) (bs1 bs2 : List TranslationSession.Block)
      (b : TranslationSession.Block) (st0 st1 st2 : SState) (e : TransErr),
      TranslationSession.runBlocks net st0 bs1 = (st1, none) →
      TranslationSession.translateBlock net st1 b = (st2, some e) →
      TranslationSession.runBlocks net st0 (bs1 ++ b :: bs2) = (st2, some e) ∧
      st2.anns = st1.anns ∧ st2.translated = st1.translated ∧
      (∀ (stPre : SState) (r : Elem),
        TranslationSession.clear stPre = st0 →
        (collectBlocks st0.settings r).map elemToBlock = bs1 ++ b :: bs2 →
        TranslationSession.translate net stPre (some r) = (st2, some e)) := by
  intro net bs1 bs2 b st0 st1 st2 e h1 h2
  have h3 : TranslationSession.runBlocks net st1 (b :: bs2) = (st2, some e) := by
    simp only [TranslationSession.runBlocks, h2]
  have hfull : TranslationSession.runBlocks net st0 (bs1 ++ b :: bs2) = (st2, some e) := by
    rw [TranslationSession.runBlocks_append_ok net bs1 (b :: bs2) st0 st1 h1, h3]
  obtain ⟨ha, ht, -, -, -, -⟩ :=
    TranslationSession.translateBlock_err_frame net st1 st2 b e h2
  refine ⟨hfull, ha, ht, ?_⟩
  intro stPre r hclear hblocks
  simp only [TranslationSession.translate, hclear, hblocks, hfull]

def settingsC3 : KissTranslatorSettings :=
  ⟨"simple", "http://s", "", "", "en", "zh", "", "u", [], false, false⟩

def netC3 : FetchRequest → FetchResponse := fun _ => ⟨500, none, "boom"⟩

def stPreC3 : SState := ⟨settingsC3, [], [], [], [], [], [], 0⟩

def bA : TranslationSession.Block := ⟨1, "hello"⟩

def bB : TranslationSession.Block := ⟨2, "world"⟩

def treeC3 : Elem :=
  Elem.mk 0 "div" [] [] ""
    [Elem.mk 1 "p" [] [] "hello" [], Elem.mk 2 "p" [] [] "world" []]

theorem error_aborts_sequence_witness :
    TranslationSession.runBlocks netC3 (TranslationSession.clear stPreC3)
        ([] ++ bA :: [bB]) =
      ((TranslationSession.translateBlock netC3
          (TranslationSession.clear stPreC3) bA).1,
        some (TransErr.httpSimple 500)) ∧
    TranslationSession.translate netC3 stPreC3 (some treeC3) =
      ((TranslationSession.translateBlock netC3
          (TranslationSession.clear stPreC3) bA).1,
        some (TransErr.httpSimple 500)) := by
  obtain ⟨h1, -, -, h4⟩ := error_aborts_sequence netC3 [] [bB] bA
    (TranslationSession.clear stPreC3) (TranslationSession.clear stPreC3)
    ((TranslationSession.translateBlock netC3
      (TranslationSession.clear stPreC3) bA).1)
    (TransErr.httpSimple 500) rfl rfl
  exact ⟨h1, h4 stPreC3 treeC3 rfl rfl⟩

/-! ### Claim C2 (empty backend result fails the whole run) -/

/-- C2: when an eligible block hits a cache miss and the backend call
returns an empty translated text, the whole run fails with the explicit
empty-translation error, and no annotation node and no pair is registered
for that block. -/
theorem empty_backend_fails :
    ∀ (net : FetchRequest → FetchResponse) (st0 st1 : SState)
      (bs1 bs2 : List TranslationSession.Block) (b : TranslationSession.Block)
      (rs : List FetchRequest),
      TranslationSession.runBlocks net st0 bs1 = (st1, none) →
      ¬ (normalizeText b.innerText = "" ∨ (normalizeText b.innerText).length < 2) →
      (lookupA st1.cache (normalizeText b.innerText) = none ∨
        lookupA st1.cache (normalizeText b.innerText) = some "") →
      dispatch net st1.settings (normalizeText b.innerText) = (rs, Except.ok "") →
      ∃ st2, TranslationSession.runBlocks net st0 (bs1 ++ b :: bs2) =
          (st2, some TransErr.emptyTranslation) ∧
        st2.anns = st1.anns ∧ st2.translated = st1.translated := by
  intro net st0 st1 bs1 bs2 b rs h1 hlong hmiss hdisp
  have hshort : ¬ (normalizeText b.innerText = "" ||
      (normalizeText b.innerText).length < 2) = true := by
    simpa using hlong
  have htext : TranslationSession.translateText net st1 (normalizeText b.innerText) =
      ({ st1 with requests := st1.requests ++ rs,
                  backendCalls := st1.backendCalls ++ [normalizeText b.innerText] },
        Except.error TransErr.emptyTranslation) := by
    rw [TranslationSession.translateText_miss net st1 _ hmiss]
    exact TranslationSession.translateTextMiss_empty net st1 _ rs hdisp
  have hblock := TranslationSession.translateBlock_err net st1 _ b
    TransErr.emptyTranslation hshort htext
  have key : TranslationSession.runBlocks net st0 (bs1 ++ b :: bs2) =
      ({ st1 with requests := st1.requests ++ rs,
                  backendCalls := st1.backendCalls ++ [normalizeText b.innerText] },
        some TransErr.emptyTranslation) := by
    rw [TranslationSession.runBlocks_append_ok net bs1 (b :: bs2) st0 st1 h1]
    simp only [TranslationSession.runBlocks, hblock]
  exact ⟨_, key, rfl, rfl⟩

def settingsC2 : KissTranslatorSettings :=
  ⟨"simple", "http://s", "", "", "en", "zh", "", "u", [], false, false⟩

/-- A backend whose response carries `translatedText: ""`. -/
def netC2 : FetchRequest → FetchResponse :=
  fun _ => ⟨200, some (Json.obj [("translatedText", Json.str "")]), ""⟩

def stC2 : SState := ⟨settingsC2, [], [], [], [], [], [], 0⟩

theorem empty_backend_fails_witness :
    ∃ st2, TranslationSession.runBlocks netC2 stC2
        ([] ++ (⟨1, "hello"⟩ : TranslationSession.Block) :: []) =
      (st2, some TransErr.emptyTranslation) ∧
      st2.anns = stC2.anns ∧ st2.translated = stC2.translated := by
  exact empty_backend_fails netC2 stC2 stC2 [] [] ⟨1, "hello"⟩
    (dispatch netC2 stC2.settings (normalizeText "hello")).1
    rfl (by decide) (Or.inl rfl) rfl

/-! ### Claim C6 (missing chat-style configuration) -/

theorem translateWithOpenAI_config_err (net : FetchRequest → FetchResponse)
    (s : KissTranslatorSettings) (text : String)
    (h : s.apiUrl = "" ∨ s.apiKey = "" ∨ s.model = "" ∨ trimStr s.userPrompt = "") :
    ∃ e, translateWithOpenAI net s text = ([], .error e) ∧ isConfigErr e = true := by
  by_cases h1 : s.apiUrl = ""
  · exact ⟨.cfgOpenAIUrl, by simp [translateWithOpenAI, h1], rfl⟩
  · by_cases h2 : s.apiKey = ""
    · exact ⟨.cfgOpenAIKey, by simp [translateWithOpenAI, h1, h2], rfl⟩
    · by_cases h3 : s.model = ""
      · exact ⟨.cfgOpenAIModel, by simp [translateWithOpenAI, h1, h2, h3], rfl⟩
      · by_cases h4 : trimStr s.userPrompt = ""
        · exact ⟨.cfgOpenAIPrompt, by simp [translateWithOpenAI, h1, h2, h3, h4], rfl⟩
        · rcases h with h | h | h | h <;> contradiction

/-- C6: with the chat-style backend selected and any of the required
configuration values missing (endpoint, key, model, or a blank user
prompt), `translate()` on a root with at least one eligible block (fresh
cache) rejects with a configuration error, no network request is issued,
and the pair mapping is left empty. -/
theorem missing_config_rejects :
    ∀ (net : FetchRequest → FetchResponse) (st : SState) (r : Elem),
      st.settings.apiType = "openai" →
      st.cache = [] →
      (st.settings.apiUrl = "" ∨ st.settings.apiKey = "" ∨ st.settings.model = "" ∨
        trimStr st.settings.userPrompt = "") →
      collectBlocks st.settings r ≠ [] →
      ∃ (st' : SState) (e : TransErr),
        TranslationSession.translate net st (some r) = (st', some e) ∧
        isConfigErr e = true ∧ st'.translated = [] ∧ st'.requests = st.requests := by
  intro net st r htype hcache hcfg hne
  rcases hcb : collectBlocks st.settings r with _ | ⟨el, rest⟩
  · exact absurd hcb hne
  have hmem : el ∈ collectBlocks st.settings r := by
    rw [hcb]
    exact List.mem_cons_self el rest
  obtain ⟨anc, -, -, hok⟩ := mem_collectBlocks st.settings r el hmem
  obtain ⟨-, -, -, -, hlen2, -⟩ := (blockOk_iff st.settings el anc).mp hok
  obtain ⟨e, hcall, hcfge⟩ :=
    translateWithOpenAI_config_err net st.settings (normalizeText el.innerText) hcfg
  have htne : normalizeText el.innerText ≠ "" := by
    intro hq
    rw [hq] at hlen2
    exact absurd hlen2 (by decide)
  have hshort : ¬ (normalizeText (elemToBlock el).innerText = "" ||
      (normalizeText (elemToBlock el).innerText).length < 2) = true := by
    show ¬ (normalizeText el.innerText = "" ||
      (normalizeText el.innerText).length < 2) = true
    simp only [Bool.or_eq_true, decide_eq_true_eq, not_or]
    exact ⟨htne, by omega⟩
  have hst0settings : (TranslationSession.clear st).settings = st.settings := rfl
  have hdisp : dispatch net (TranslationSession.clear st).settings
      (normalizeText el.innerText) = ([], Except.error e) := by
    rw [hst0settings]
    unfold dispatch
    rw [if_pos htype]
    exact hcall
  have hmiss : lookupA (TranslationSession.clear st).cache
      (normalizeText el.innerText) = none := by
    show lookupA st.cache (normalizeText el.innerText) = none
    rw [hcache]
    rfl
  have htext : TranslationSession.translateText net (TranslationSession.clear st)
      (normalizeText el.innerText) =
      ({ TranslationSession.clear st with
          requests := (TranslationSession.clear st).requests ++ [],
          backendCalls := (TranslationSession.clear st).backendCalls ++
            [normalizeText el.innerText] },
        Except.error e) := by
    rw [TranslationSession.translateText_miss net _ _ (Or.inl hmiss)]
    exact TranslationSession.translateTextMiss_err net _ _ [] e hdisp
  have hblock : TranslationSession.translateBlock net (TranslationSession.clear st)
      (elemToBlock el) =
      ({ TranslationSession.clear st with
          requests := (TranslationSession.clear st).requests ++ [],
          backendCalls := (TranslationSession.clear st).backendCalls ++
            [normalizeText el.innerText] },
        some e) :=
    TranslationSession.translateBlock_err net _ _ (elemToBlock el) e hshort htext
  have hblocks : (collectBlocks (TranslationSession.clear st).settings r).map elemToBlock =
      elemToBlock el :: rest.map elemToBlock := by
    rw [hst0settings, hcb]
    rfl
  have key : TranslationSession.translate net st (some r) =
      ({ TranslationSession.clear st with
          requests := (TranslationSession.clear st).requests ++ [],
          backendCalls := (TranslationSession.clear st).backendCalls ++
            [normalizeText el.innerText] },
        some e) := by
    simp only [TranslationSession.translate, hblocks, TranslationSession.runBlocks, hblock]
  refine ⟨_, e, key, hcfge, rfl, ?_⟩
  show (TranslationSession.clear st).requests ++ [] = st.requests
  simp only [List.append_nil]
  rfl

def settingsC6 : KissTranslatorSettings :=
  ⟨"openai", "http://u", "", "m", "en", "zh", "", "T {text}", [], false, false⟩

def stC6 : SState := ⟨settingsC6, [], [], [], [], [], [], 0⟩

def treeC6 : Elem :=
  Elem.mk 0 "div" [] [] "" [Elem.mk 1 "p" [] [] "hello there" []]

theorem missing_config_rejects_witness :
    ∃ (st' : SState) (e : TransErr),
      TranslationSession.translate
          (fun _ => (⟨200, some Json.null, ""⟩ : FetchResponse)) stC6 (some treeC6) =
        (st', some e) ∧
      isConfigErr e = true ∧ st'.translated = [] ∧ st'.requests = stC6.requests := by
  refine missing_config_rejects (fun _ => (⟨200, some Json.null, ""⟩ : FetchResponse))
    stC6 treeC6 rfl rfl (Or.inr (Or.inl rfl)) ?_
  intro h
  rw [show collectBlocks stC6.settings treeC6 =
    [Elem.mk 1 "p" [] [] "hello there" []] from rfl] at h
  cases h

/-! ### Claim C4 (cache deduplication) -/

theorem lookupA_fresh_none {β : Type} (xs : List (Nat × β)) (n : Nat)
    (h : ∀ p ∈ xs, p.1 < n) : lookupA xs n = none := by
  induction xs with
  | nil => rfl
  | cons p rest ih =>
    obtain ⟨k, v⟩ := p
    have hp := h (k, v) (List.mem_cons_self _ rest)
    have hk : k ≠ n := by
      simp only at hp
      omega
    show (if k = n then some v else lookupA rest n) = none
    rw [if_neg hk]
    exact ih (fun q hq => h q (List.mem_cons_of_mem _ hq))

theorem nodup_append_singleton {α : Type} (l : List α) (a : α)
    (h : l.Nodup) (ha : a ∉ l) : (l ++ [a]).Nodup := by
  simp [List.nodup_append, h, ha]

namespace TranslationSession

/-- The annotation content registered for original node `n`: follow the pair
map, then read the annotation node's text. -/
def annContentOf (st : SState) (n : Nat) : Option String :=
  match lookupA st.translated n with
  | some aid => lookupA st.anns aid
  | none => none

/-- Run invariant of a session whose settings snapshot is `s`: every cache
entry is a non-empty result the backend dispatch produces for its key and
was obtained by a logged backend call; every logged call has its (non-empty)
result in the cache; no text was dispatched twice; annotation node ids are
below the fresh-id counter. -/
def CacheInv (net : FetchRequest → FetchResponse)
    (s : KissTranslatorSettings) (st : SState) : Prop :=
  st.settings = s ∧
  (∀ t v, lookupA st.cache t = some v →
    v ≠ "" ∧ (dispatch net s t).2 = Except.ok v ∧ t ∈ st.backendCalls) ∧
  (∀ t, t ∈ st.backendCalls → ∃ v, lookupA st.cache t = some v ∧ v ≠ "") ∧
  st.backendCalls.Nodup ∧
  (∀ p ∈ st.anns, p.1 < st.nextId)

/-- Case analysis of a successful `translateText`. -/
theorem translateText_cases (net : FetchRequest → FetchResponse)
    (st stT : SState) (text v : String)
    (h : translateText net st text = (stT, .ok v)) :
    (lookupA st.cache text = some v ∧ v ≠ "" ∧ stT = st) ∨
    ((lookupA st.cache text = none ∨ lookupA st.cache text = some "") ∧
      ∃ rs, dispatch net st.settings text = (rs, .ok v) ∧ v ≠ "" ∧
        stT = { st with requests := st.requests ++ rs,
                        backendCalls := st.backendCalls ++ [text],
                        cache := setA st.cache text v }) := by
  by_cases hhit : ∃ c, lookupA st.cache text = some c ∧ c ≠ ""
  · obtain ⟨c, hl, hc⟩ := hhit
    rw [translateText_hit net st text c hl hc] at h
    simp only [Prod.mk.injEq, Except.ok.injEq] at h
    obtain ⟨h1, h2⟩ := h
    subst h2
    exact Or.inl ⟨hl, hc, h1.symm⟩
  · have hm : lookupA st.cache text = none ∨ lookupA st.cache text = some "" := by
      by_cases hn : lookupA st.cache text = none
      · exact Or.inl hn
      · obtain ⟨c, hc⟩ := Option.ne_none_iff_exists'.mp hn
        by_cases hce : c = ""
        · exact Or.inr (by rw [hc, hce])
        · exact absurd ⟨c, hc, hce⟩ hhit
    rw [translateText_miss net st text hm] at h
    right
    refine ⟨hm, ?_⟩
    rcases hd : dispatch net st.settings text with ⟨rs, dr⟩
    cases dr with
    | error e =>
      rw [translateTextMiss_err net st text rs e hd] at h
      cases h
    | ok w =>
      by_cases hw : w = ""
      · subst hw
        rw [translateTextMiss_empty net st text rs hd] at h
        cases h
      · rw [translateTextMiss_ok net st text rs w hd hw] at h
        simp only [Prod.mk.injEq, Except.ok.injEq] at h
        obtain ⟨h1, h2⟩ := h
        subst h2
        exact ⟨rs, rfl, hw, h1.symm⟩

/-- One successful `translateBlock` step preserves the run invariant. -/
theorem translateBlock_inv (net : FetchRequest → FetchResponse)
    (s : KissTranslatorSettings) (st st' : SState) (b : Block)
    (hinv : CacheInv net s st)
    (h : translateBlock net st b = (st', none)) :
    CacheInv net s st' := by
  obtain ⟨hset, hcv, hvc, hnd, hfr⟩ := hinv
  rcases translateBlock_cases net st st' b none h with
    ⟨rfl, -, -⟩ | ⟨stT, e, -, -, hnone⟩ | ⟨stT, v, ht, hv, hst', -⟩
  · exact ⟨hset, hcv, hvc, hnd, hfr⟩
  · cases hnone
  · rcases translateText_cases net st stT _ v ht with
      ⟨hcache, -, hstT⟩ | ⟨hm, rs, hd, -, hstT⟩
    · subst hstT
      subst hst'
      refine ⟨hset, hcv, hvc, hnd, ?_⟩
      intro p hp
      simp only [List.mem_append, List.mem_singleton] at hp
      rcases hp with hp | hp
      · have := hfr p hp
        simp only
        omega
      · subst hp
        simp only
        omega
    · subst hstT
      subst hst'
      have hnotin : normalizeText b.innerText ∉ st.backendCalls := by
        intro hin
        obtain ⟨w, hw, hwne⟩ := hvc _ hin
        rcases hm with hm | hm
        · rw [hm] at hw
          cases hw
        · rw [hm] at hw
          cases hw
          exact hwne rfl
      refine ⟨hset, ?_, ?_, ?_, ?_⟩
      · intro t v' hl
        by_cases htx : t = normalizeText b.innerText
        · subst htx
          rw [lookupA_setA_self] at hl
          cases hl
          refine ⟨hv, ?_, List.mem_append_right _ (List.mem_singleton.mpr rfl)⟩
          rw [← hset, hd]
        · rw [lookupA_setA_ne st.cache _ t v htx] at hl
          obtain ⟨h1, h2, h3⟩ := hcv t v' hl
          exact ⟨h1, h2, List.mem_append_left _ h3⟩
      · intro t hin
        simp only [List.mem_append, List.mem_singleton] at hin
        by_cases htx : t = normalizeText b.innerText
        · subst htx
          exact ⟨v, lookupA_setA_self st.cache _ v, hv⟩
        · rcases hin with hin | hin
          · obtain ⟨w, hw, hwne⟩ := hvc t hin
            exact ⟨w, by rw [lookupA_setA_ne st.cache _ t v htx]; exact hw, hwne⟩
          · exact absurd hin htx
      · exact nodup_append_singleton st.backendCalls _ hnd hnotin
      · intro p hp
        simp only [List.mem_append, List.mem_singleton] at hp
        rcases hp with hp | hp
        · have := hfr p hp
          simp only
          omega
        · subst hp
          simp only
          omega

end TranslationSession

namespace TranslationSession

/-- After a successful step on an eligible block, the block's text is cached
(non-empty) and the block is paired to an annotation node carrying exactly
the cached translation. -/
theorem translateBlock_post (net : FetchRequest → FetchResponse)
    (s : KissTranslatorSettings) (st st' : SState) (b : Block) (t : String)
    (hinv : CacheInv net s st)
    (ht : normalizeText b.innerText = t) (hlen : 2 ≤ t.length)
    (h : translateBlock net st b = (st', none)) :
    ∃ v aid, v ≠ "" ∧ lookupA st'.cache t = some v ∧
      lookupA st'.translated b.id = some aid ∧
      lookupA st'.anns aid = some v := by
  obtain ⟨-, -, -, -, hfr⟩ := hinv
  have htne : t ≠ "" := by
    intro hq
    rw [hq] at hlen
    exact absurd hlen (by decide)
  rcases translateBlock_cases net st st' b none h with
    ⟨-, -, hshort⟩ | ⟨stT, e, -, -, hnone⟩ | ⟨stT, v, htr, hv, hst', -⟩
  · rw [ht] at hshort
    rcases hshort with hshort | hshort
    · exact absurd hshort htne
    · omega
  · cases hnone
  · rw [ht] at htr
    have hannfr : ∀ p ∈ stT.anns, p.1 < stT.nextId := by
      rcases translateText_cases net st stT t v htr with
        ⟨-, -, hstT⟩ | ⟨-, rs, -, -, hstT⟩ <;> (subst hstT; exact hfr)
    have hcache : lookupA stT.cache t = some v := by
      rcases translateText_cases net st stT t v htr with
        ⟨hc, -, hstT⟩ | ⟨-, rs, -, -, hstT⟩
      · subst hstT
        exact hc
      · subst hstT
        exact lookupA_setA_self st.cache t v
    subst hst'
    refine ⟨v, stT.nextId, hv, hcache, lookupA_setA_self stT.translated b.id stT.nextId, ?_⟩
    exact lookupA_append_right_fresh stT.anns stT.nextId v
      (lookupA_fresh_none stT.anns stT.nextId hannfr)

/-- A successful step on a block with a *different* id preserves existing
cache entries, pair-map entries and annotation contents. -/
theorem translateBlock_preserve (net : FetchRequest → FetchResponse)
    (st st' : SState) (b : Block)
    (h : translateBlock net st b = (st', none)) :
    (∀ t v, lookupA st.cache t = some v → v ≠ "" → lookupA st'.cache t = some v) ∧
    (∀ n, n ≠ b.id →
      ∀ aid, lookupA st.translated n = some aid → lookupA st'.translated n = some aid) ∧
    (∀ aid c, lookupA st.anns aid = some c → lookupA st'.anns aid = some c) := by
  rcases translateBlock_cases net st st' b none h with
    ⟨rfl, -, -⟩ | ⟨stT, e, -, -, hnone⟩ | ⟨stT, v, htr, hv, hst', -⟩
  · exact ⟨fun t v hl _ => hl, fun n _ aid hl => hl, fun aid c hl => hl⟩
  · cases hnone
  · have hcachep : ∀ t v', lookupA st.cache t = some v' → v' ≠ "" →
        lookupA stT.cache t = some v' := by
      rcases translateText_cases net st stT _ v htr with
        ⟨-, -, hstT⟩ | ⟨hm, rs, -, -, hstT⟩
      · subst hstT
        exact fun t v' hl _ => hl
      · subst hstT
        intro t v' hl hne
        show lookupA (setA st.cache (normalizeText b.innerText) v) t = some v'
        by_cases htx : t = normalizeText b.innerText
        · subst htx
          rcases hm with hm | hm
          · rw [hm] at hl
            cases hl
          · rw [hm] at hl
            cases hl
            exact absurd rfl hne
        · rw [lookupA_setA_ne st.cache _ t v htx]
          exact hl
    have hrest : stT.translated = st.translated ∧ stT.anns = st.anns := by
      rcases translateText_cases net st stT _ v htr with
        ⟨-, -, hstT⟩ | ⟨-, rs, -, -, hstT⟩ <;> (subst hstT; exact ⟨rfl, rfl⟩)
    subst hst'
    refine ⟨hcachep, ?_, ?_⟩
    · intro n hn aid hl
      show lookupA (setA stT.translated b.id stT.nextId) n = some aid
      rw [lookupA_setA_ne stT.translated b.id n stT.nextId hn, hrest.1]
      exact hl
    · intro aid c hl
      show lookupA (stT.anns ++ [(stT.nextId, v)]) aid = some c
      exact lookupA_append_left stT.anns _ aid c (by rw [hrest.2]; exact hl)

/-- The per-step preservations, lifted over a successful run whose blocks
avoid the id `n`. -/
theorem runBlocks_preserve (net : FetchRequest → FetchResponse)
    (s : KissTranslatorSettings) (bs : List Block) (st st1 : SState)
    (hinv : CacheInv net s st)
    (hrun : runBlocks net st bs = (st1, none)) :
    CacheInv net s st1 ∧
    (∀ t v, lookupA st.cache t = some v → v ≠ "" → lookupA st1.cache t = some v) ∧
    (∀ n, n ∉ bs.map Block.id →
      ∀ aid, lookupA st.translated n = some aid → lookupA st1.translated n = some aid) ∧
    (∀ aid c, lookupA st.anns aid = some c → lookupA st1.anns aid = some c) := by
  induction bs generalizing st with
  | nil =>
    rw [runBlocks] at hrun
    cases hrun
    exact ⟨hinv, fun t v hl _ => hl, fun n _ aid hl => hl, fun aid c hl => hl⟩
  | cons b rest ih =>
    rw [runBlocks] at hrun
    rcases hb : translateBlock net st b with ⟨stB, oeB⟩
    rw [hb] at hrun
    cases oeB with
    | some e => cases hrun
    | none =>
      have hinvB := translateBlock_inv net s st stB b hinv hb
      obtain ⟨hc1, ht1, ha1⟩ := translateBlock_preserve net st stB b hb
      obtain ⟨hinv1, hc2, ht2, ha2⟩ := ih stB hinvB hrun
      refine ⟨hinv1, ?_, ?_, ?_⟩
      · intro t v hl hne
        exact hc2 t v (hc1 t v hl hne) hne
      · intro n hn aid hl
        simp only [List.map_cons, List.mem_cons, not_or] at hn
        exact ht2 n (by simpa using hn.2) aid (ht1 n hn.1 aid hl)
      · intro aid c hl
        exact ha2 aid c (ha1 aid c hl)

/-- Inversion of a successful run of an appended block list. -/
theorem runBlocks_append_inv (net : FetchRequest → FetchResponse)
    (xs ys : List Block) (st st1 : SState)
    (h : runBlocks net st (xs ++ ys) = (st1, none)) :
    ∃ stm, runBlocks net st xs = (stm, none) ∧ runBlocks net stm ys = (st1, none) := by
  rw [runBlocks_append] at h
  rcases hx : runBlocks net st xs with ⟨stm, oe⟩
  rw [hx] at h
  cases oe with
  | some e => cases h
  | none => exact ⟨stm, rfl, h⟩

/-- Inversion of a successful run of a cons. -/
theorem runBlocks_cons_inv (net : FetchRequest → FetchResponse)
    (b : Block) (rest : List Block) (st st1 : SState)
    (h : runBlocks net st (b :: rest) = (st1, none)) :
    ∃ stm, translateBlock net st b = (stm, none) ∧
      runBlocks net stm rest = (st1, none) := by
  rw [runBlocks] at h
  rcases hb : translateBlock net st b with ⟨stm, oe⟩
  rw [hb] at h
  cases oe with
  | some e => cases h
  | none => exact ⟨stm, rfl, h⟩

end TranslationSession

/-- C4: in one `translate()` run (fresh cache and logs) over a block
sequence containing two blocks with the same normalized text `t` (and
pairwise-distinct node ids), the backend is dispatched exactly once for `t`,
and the two blocks' annotation nodes carry the same (non-empty) translated
text. -/
theorem cache_dedup :
    ∀ (net : FetchRequest → FetchResponse) (st0 st1 : SState)
      (bs1 bs2 bs3 : List TranslationSession.Block)
      (bi bj : TranslationSession.Block) (t : String),
      st0.cache = [] → st0.backendCalls = [] → st0.anns = [] →
      normalizeText bi.innerText = t → normalizeText bj.innerText = t →
      2 ≤ t.length →
      ((bs1 ++ bi :: (bs2 ++ bj :: bs3)).map TranslationSession.Block.id).Nodup →
      TranslationSession.runBlocks net st0 (bs1 ++ bi :: (bs2 ++ bj :: bs3)) =
        (st1, none) →
      st1.backendCalls.count t = 1 ∧
      ∃ v, v ≠ "" ∧ TranslationSession.annContentOf st1 bi.id = some v ∧
        TranslationSession.annContentOf st1 bj.id = some v := by
  intro net st0 st1 bs1 bs2 bs3 bi bj t hc0 hb0 ha0 hti htj hlen hnd hrun
  have hinv0 : TranslationSession.CacheInv net st0.settings st0 := by
    refine ⟨rfl, ?_, ?_, ?_, ?_⟩
    · intro t' v hl
      rw [hc0] at hl
      cases hl
    · intro t' hin
      rw [hb0] at hin
      cases hin
    · rw [hb0]
      exact List.nodup_nil
    · intro p hp
      rw [ha0] at hp
      cases hp
  obtain ⟨stA, hrun1, hrun2⟩ :=
    TranslationSession.runBlocks_append_inv net bs1 _ st0 st1 hrun
  obtain ⟨stB, hstepI, hrun3⟩ :=
    TranslationSession.runBlocks_cons_inv net bi _ stA st1 hrun2
  obtain ⟨stC, hrun4, hrun5⟩ :=
    TranslationSession.runBlocks_append_inv net bs2 _ stB st1 hrun3
  obtain ⟨stD, hstepJ, hrun6⟩ :=
    TranslationSession.runBlocks_cons_inv net bj _ stC st1 hrun5
  simp only [List.map_append, List.map_cons] at hnd
  have hnd2 := (List.nodup_append.mp hnd).2.1
  have hbiout := (List.nodup_cons.mp hnd2).1
  have hnd3 := (List.nodup_cons.mp hnd2).2
  simp only [List.mem_append, List.mem_cons, not_or] at hbiout
  obtain ⟨hbi2, hbij, hbi3⟩ := hbiout
  have hnd4 := (List.nodup_append.mp hnd3).2.1
  have hbj3 := (List.nodup_cons.mp hnd4).1
  obtain ⟨hinvA, -, -, -⟩ :=
    TranslationSession.runBlocks_preserve net st0.settings bs1 st0 stA hinv0 hrun1
  have hinvB := TranslationSession.translateBlock_inv net st0.settings stA stB bi hinvA hstepI
  obtain ⟨hinvC, hcBC, htBC, haBC⟩ :=
    TranslationSession.runBlocks_preserve net st0.settings bs2 stB stC hinvB hrun4
  have hinvD := TranslationSession.translateBlock_inv net st0.settings stC stD bj hinvC hstepJ
  obtain ⟨hinv1, hcD1, htD1, haD1⟩ :=
    TranslationSession.runBlocks_preserve net st0.settings bs3 stD st1 hinvD hrun6
  obtain ⟨v, aidI, hvne, hcacheB, htransB, hannB⟩ :=
    TranslationSession.translateBlock_post net st0.settings stA stB bi t hinvA hti hlen hstepI
  have hcacheC := hcBC t v hcacheB hvne
  obtain ⟨hcJ, htJ, haJ⟩ := TranslationSession.translateBlock_preserve net stC stD bj hstepJ
  have hcacheD := hcJ t v hcacheC hvne
  obtain ⟨v', aidJ, hv'ne, hcacheD', htransD, hannD⟩ :=
    TranslationSession.translateBlock_post net st0.settings stC stD bj t hinvC htj hlen hstepJ
  have hvv : v' = v := by
    have := hcacheD'.symm.trans hcacheD
    exact (Option.some.injEq _ _).mp this.symm |>.symm
  rw [hvv] at hannD
  have htransC_bi := htBC bi.id hbi2 aidI htransB
  have hannC_bi := haBC aidI v hannB
  have htransD_bi := htJ bi.id hbij aidI htransC_bi
  have hannD_bi := haJ aidI v hannC_bi
  have htrans1_bi := htD1 bi.id hbi3 aidI htransD_bi
  have hann1_bi := haD1 aidI v hannD_bi
  have htrans1_bj := htD1 bj.id hbj3 aidJ htransD
  have hann1_bj := haD1 aidJ v hannD
  have hcache1 := hcD1 t v hcacheD hvne
  constructor
  · have hmem := (hinv1.2.1 t v hcache1).2.2
    exact List.count_eq_one_of_mem hinv1.2.2.2.1 hmem
  · refine ⟨v, hvne, ?_, ?_⟩
    · simp only [TranslationSession.annContentOf, htrans1_bi, hann1_bi]
    · simp only [TranslationSession.annContentOf, htrans1_bj, hann1_bj]

def settingsC4 : KissTranslatorSettings :=
  ⟨"simple", "http://s", "", "", "en", "zh", "", "u", [], false, false⟩

def netC4 : FetchRequest → FetchResponse :=
  fun _ => ⟨200, some (Json.obj [("translatedText", Json.str "你好")]), ""⟩

def stC4 : SState := ⟨settingsC4, [], [], [], [], [], [], 0⟩

def bC4a : TranslationSession.Block := ⟨1, "hello"⟩

def bC4b : TranslationSession.Block := ⟨2, "hello"⟩

theorem cache_dedup_witness :
    (TranslationSession.runBlocks netC4 stC4
        ([] ++ bC4a :: ([] ++ bC4b :: []))).1.backendCalls.count "hello" = 1 ∧
    ∃ v, v ≠ "" ∧
      TranslationSession.annContentOf
        (TranslationSession.runBlocks netC4 stC4
          ([] ++ bC4a :: ([] ++ bC4b :: []))).1 bC4a.id = some v ∧
      TranslationSession.annContentOf
        (TranslationSession.runBlocks netC4 stC4
          ([] ++ bC4a :: ([] ++ bC4b :: []))).1 bC4b.id = some v :=
  cache_dedup netC4 stC4 _ [] [] [] bC4a bC4b "hello"
    rfl rfl rfl rfl rfl (by decide) (by decide) rfl
